import Mathlib

/-!
Verification of the TFM Telegram-bot pipeline (src/bot.py, src/utils/*.py)
against its natural-language specification.

Shallow embedding conventions:
* Python strings are modelled as Lean `String` (or `List Char` where a claim
  reasons character by character, as in the message chunker).
* The external model-backed capabilities (Lingua / langdetect language
  detectors, MarianMT translation models, the GoEmotions scoring pipe) are
  out of scope per the spec and are passed in as function parameters; a
  capability that may raise is modelled with `Except Unit` / `Option`
  (`Except.error` / `none` standing for a raised exception).
* Model scores (Python floats used only in comparisons) are modelled as `ℚ`.
* Python float formatting (`f"{conf:.0f}"`, `f"{score:.2f}"`) is not statable
  exactly; the rendered strings are passed in as string parameters.
-/

namespace TFM


def pyIsSpace (c : Char) : Bool :=
  (c == ' ') || (c == '\t') || (c == '\n') || (c == '\r') || (c == '\x0b') || (c == '\x0c')

def lastIndexOf (c : Char) : List Char → Option Nat
  | [] => none
  | x :: xs =>
      match lastIndexOf c xs with
      | some i => some (i + 1)
      | none => if x = c then some 0 else none

def cutPoint (limit : Nat) (text : List Char) : Nat :=
  match lastIndexOf '\n' (text.take limit) with
  | some i => i
  | none =>
      match lastIndexOf ' ' (text.take limit) with
      | some i => i
      | none => limit

theorem lastIndexOf_lt_length {c : Char} : ∀ {l : List Char} {i : Nat},
    lastIndexOf c l = some i → i < l.length := by
  intro l
  induction l with
  | nil => intro i h; simp [lastIndexOf] at h
  | cons x xs ih =>
      intro i h
      cases hx : lastIndexOf c xs with
      | some j =>
          simp only [lastIndexOf, hx] at h
          cases h
          exact Nat.succ_lt_succ (ih hx)
      | none =>
          by_cases hxc : x = c
          · simp only [lastIndexOf, hx, hxc, if_pos] at h
            cases h
            simp
          · simp only [lastIndexOf, hx, hxc, if_neg, not_false_iff] at h
            exact Option.noConfusion h

theorem lastIndexOf_get {c : Char} : ∀ {l : List Char} {i : Nat},
    lastIndexOf c l = some i → l.get? i = some c := by
  intro l
  induction l with
  | nil => intro i h; simp [lastIndexOf] at h
  | cons x xs ih =>
      intro i h
      cases hx : lastIndexOf c xs with
      | some j =>
          simp only [lastIndexOf, hx] at h
          cases h
          simpa using ih hx
      | none =>
          by_cases hxc : x = c
          · simp only [lastIndexOf, hx, hxc, if_pos] at h
            cases h
            simp [hxc]
          · simp only [lastIndexOf, hx, hxc, if_neg, not_false_iff] at h
            exact Option.noConfusion h

theorem cutPoint_le (limit : Nat) (text : List Char) : cutPoint limit text ≤ limit := by
  have hlen : (text.take limit).length ≤ limit := by simp
  cases h1 : lastIndexOf '\n' (text.take limit) with
  | some i =>
      have := lastIndexOf_lt_length h1
      simp only [cutPoint, h1]
      omega
  | none =>
      cases h2 : lastIndexOf ' ' (text.take limit) with
      | some i =>
          have := lastIndexOf_lt_length h2
          simp only [cutPoint, h1, h2]
          omega
      | none => simp only [cutPoint, h1, h2]; exact Nat.le_refl _

theorem cutPoint_zero_head (limit : Nat) (text : List Char)
    (hlim : 1 ≤ limit) (hlen : limit < text.length)
    (h : cutPoint limit text = 0) :
    text.get? 0 = some '\n' ∨ text.get? 0 = some ' ' := by
  have htake : (text.take limit).get? 0 = text.get? 0 := by
    cases text with
    | nil => simp at hlen
    | cons a l =>
        cases limit with
        | zero => omega
        | succ m => simp
  cases h1 : lastIndexOf '\n' (text.take limit) with
  | some i =>
      simp only [cutPoint, h1] at h
      subst h
      left
      rw [← htake]
      exact lastIndexOf_get h1
  | none =>
      cases h2 : lastIndexOf ' ' (text.take limit) with
      | some i =>
          simp only [cutPoint, h1, h2] at h
          subst h
          right
          rw [← htake]
          exact lastIndexOf_get h2
      | none =>
          simp only [cutPoint, h1, h2] at h
          omega

theorem rest_length_lt (limit : Nat) (text : List Char)
    (hlim : 1 ≤ limit) (hlen : limit < text.length) :
    ((text.drop (cutPoint limit text)).dropWhile pyIsSpace).length < text.length := by
  have hdw : ((text.drop (cutPoint limit text)).dropWhile pyIsSpace).length
      ≤ (text.drop (cutPoint limit text)).length :=
    (List.dropWhile_sublist _).length_le
  rcases Nat.eq_zero_or_pos (cutPoint limit text) with h0 | hpos
  · have hhead := cutPoint_zero_head limit text hlim hlen h0
    rw [h0] at hdw ⊢
    cases text with
    | nil => simp at hlen
    | cons a l =>
        have ha : pyIsSpace a = true := by
          rcases hhead with h | h <;> simp at h <;> rw [h] <;> rfl
        have : (List.dropWhile pyIsSpace (a :: l)).length ≤ l.length := by
          rw [List.dropWhile_cons_of_pos ha]
          exact (List.dropWhile_sublist _).length_le
        simp only [List.drop_zero]
        simpa using Nat.lt_succ_of_le this
  · have hdrop : (text.drop (cutPoint limit text)).length < text.length := by
      rw [List.length_drop]
      omega
    exact Nat.lt_of_le_of_lt hdw hdrop

def splitAux (limit : Nat) : Nat → List Char → List (List Char)
  | 0, _ => []
  | fuel + 1, text =>
      if limit < text.length then
        let cut := cutPoint limit text
        text.take cut :: splitAux limit fuel ((text.drop cut).dropWhile pyIsSpace)
      else if text.isEmpty then [] else [text]

def splitTelegramMessage (limit : Nat) (text : List Char) : List (List Char) :=
  splitAux limit (text.length + 1) text

theorem splitAux_length_le (limit : Nat) (hlim : 1 ≤ limit) :
    ∀ (fuel : Nat) (text : List Char), text.length < fuel →
      ∀ p ∈ splitAux limit fuel text, p.length ≤ limit := by
  intro fuel
  induction fuel with
  | zero => intro text h; omega
  | succ n ih =>
      intro text hf p hp
      by_cases hlen : limit < text.length
      · rw [splitAux, if_pos hlen] at hp
        rcases List.mem_cons.mp hp with h | h
        · subst h
          have : (text.take (cutPoint limit text)).length ≤ cutPoint limit text := by
            simp [List.length_take]
          exact le_trans this (cutPoint_le limit text)
        · have hrest := rest_length_lt limit text hlim hlen
          exact ih _ (by omega) p h
      · rw [splitAux, if_neg hlen] at hp
        split at hp
        · simp at hp
        · rcases List.mem_singleton.mp hp with rfl
          omega

theorem splitAux_fuel_stable (limit : Nat) (hlim : 1 ≤ limit) :
    ∀ (fuel fuel' : Nat) (text : List Char), text.length < fuel → text.length < fuel' →
      splitAux limit fuel text = splitAux limit fuel' text := by
  intro fuel
  induction fuel with
  | zero => intro fuel' text h; omega
  | succ n ih =>
      intro fuel' text hf hf'
      cases fuel' with
      | zero => omega
      | succ m =>
          by_cases hlen : limit < text.length
          · have hrest := rest_length_lt limit text hlim hlen
            simp only [splitAux, if_pos hlen]
            rw [ih m _ (by omega) (by omega)]
          · rw [splitAux, splitAux, if_neg hlen, if_neg hlen]

def splitAuxWs (limit : Nat) : Nat → List Char → List (List Char × List Char)
  | 0, _ => []
  | fuel + 1, text =>
      if limit < text.length then
        let cut := cutPoint limit text
        (text.take cut, (text.drop cut).takeWhile pyIsSpace)
          :: splitAuxWs limit fuel ((text.drop cut).dropWhile pyIsSpace)
      else if text.isEmpty then [] else [(text, [])]

def splitWithWs (limit : Nat) (text : List Char) : List (List Char × List Char) :=
  splitAuxWs limit (text.length + 1) text

def joinWs (l : List (List Char × List Char)) : List Char :=
  l.foldr (fun pw acc => pw.1 ++ pw.2 ++ acc) []

theorem splitAuxWs_fst (limit : Nat) :
    ∀ (fuel : Nat) (text : List Char),
      (splitAuxWs limit fuel text).map Prod.fst = splitAux limit fuel text := by
  intro fuel
  induction fuel with
  | zero => intro text; rfl
  | succ n ih =>
      intro text
      by_cases hlen : limit < text.length
      · simp only [splitAuxWs, splitAux, if_pos hlen, List.map_cons]
        rw [ih]
      · simp only [splitAuxWs, splitAux, if_neg hlen]
        split <;> rfl

theorem splitAuxWs_join (limit : Nat) (hlim : 1 ≤ limit) :
    ∀ (fuel : Nat) (text : List Char), text.length < fuel →
      joinWs (splitAuxWs limit fuel text) = text := by
  intro fuel
  induction fuel with
  | zero => intro text h; omega
  | succ n ih =>
      intro text hf
      by_cases hlen : limit < text.length
      · have hrest := rest_length_lt limit text hlim hlen
        simp only [splitAuxWs, if_pos hlen, joinWs, List.foldr_cons]
        rw [show ∀ l : List (List Char × List Char), List.foldr
              (fun pw acc => pw.1 ++ pw.2 ++ acc) [] l = joinWs l from fun _ => rfl]
        rw [ih _ (by omega)]
        rw [List.append_assoc, List.takeWhile_append_dropWhile, List.take_append_drop]
      · simp only [splitAuxWs, if_neg hlen]
        split
        · rename_i hemp
          simp [List.isEmpty_iff] at hemp
          simp [joinWs, hemp]
        · simp [joinWs]

theorem splitAuxWs_ws_space (limit : Nat) :
    ∀ (fuel : Nat) (text : List Char),
      ∀ pw ∈ splitAuxWs limit fuel text, ∀ c ∈ pw.2, pyIsSpace c := by
  intro fuel
  induction fuel with
  | zero => intro text pw hpw; simp [splitAuxWs] at hpw
  | succ n ih =>
      intro text pw hpw
      by_cases hlen : limit < text.length
      · rw [splitAuxWs, if_pos hlen] at hpw
        rcases List.mem_cons.mp hpw with h | h
        · subst h
          intro c hc
          exact List.mem_takeWhile_imp hc
        · exact ih _ pw h
      · rw [splitAuxWs, if_neg hlen] at hpw
        split at hpw
        · simp at hpw
        · rcases List.mem_singleton.mp hpw with rfl
          intro c hc
          simp at hc

theorem splitTelegramMessage_nil_iff (limit : Nat) (text : List Char) :
    splitTelegramMessage limit text = [] ↔ text = [] := by
  constructor
  · intro h
    by_contra hne
    unfold splitTelegramMessage splitAux at h
    by_cases hlen : limit < text.length
    · rw [if_pos hlen] at h
      exact List.cons_ne_nil _ _ h
    · rw [if_neg hlen] at h
      have : ¬ text.isEmpty := by simpa [List.isEmpty_iff] using hne
      rw [if_neg this] at h
      exact List.cons_ne_nil _ _ h
  · intro h
    subst h
    rfl

theorem splitAux_hardcut (limit : Nat) (hlim : 1 ≤ limit) :
    ∀ (fuel : Nat) (text : List Char), text.length < fuel →
      (∀ c ∈ text, ¬(c = '\n' ∨ c = ' ')) →
      ∀ p ∈ (splitAux limit fuel text).dropLast, p.length = limit := by
  intro fuel
  induction fuel with
  | zero => intro text h; omega
  | succ n ih =>
      intro text hf hnb p hp
      by_cases hlen : limit < text.length
      · have hcut : cutPoint limit text = limit := by
          unfold cutPoint
          have h1 : lastIndexOf '\n' (text.take limit) = none := by
            cases hli : lastIndexOf '\n' (text.take limit) with
            | none => rfl
            | some i =>
                have := lastIndexOf_get hli
                have hmem : '\n' ∈ text.take limit := by
                  exact List.get?_mem this
                have : '\n' ∈ text := List.mem_of_mem_take hmem
                exact absurd (Or.inl rfl) (hnb _ this)
          have h2 : lastIndexOf ' ' (text.take limit) = none := by
            cases hli : lastIndexOf ' ' (text.take limit) with
            | none => rfl
            | some i =>
                have := lastIndexOf_get hli
                have hmem : ' ' ∈ text.take limit := by
                  exact List.get?_mem this
                have : ' ' ∈ text := List.mem_of_mem_take hmem
                exact absurd (Or.inr rfl) (hnb _ this)
          rw [h1, h2]
        have hrest := rest_length_lt limit text hlim hlen
        rw [splitAux, if_pos hlen] at hp
        simp only [hcut] at hp hrest
        have hrnb : ∀ c ∈ (text.drop limit).dropWhile pyIsSpace, ¬(c = '\n' ∨ c = ' ') := by
          intro c hc
          exact hnb c (List.mem_of_mem_drop (List.dropWhile_subset _ hc))
        cases hrec : splitAux limit n ((text.drop limit).dropWhile pyIsSpace) with
        | nil =>
            rw [hrec] at hp
            simp at hp
        | cons q qs =>
            rw [hrec] at hp
            rw [List.dropLast_cons₂] at hp
            rcases List.mem_cons.mp hp with h | h
            · subst h
              simp [List.length_take]
              omega
            · have := ih _ (by omega) hrnb p
              rw [hrec] at this
              exact this h
      · rw [splitAux, if_neg hlen] at hp
        split at hp <;> simp at hp

/-- C1: for every input text and every chunk limit ≥ 1, the message splitter
`_split_telegram_message` terminates (any fuel beyond the text length computes
the same, fixed segment list) and every returned segment has length ≤ `limit`;
on pathological input with no newline or space breakpoints it hard-cuts at
exactly `limit` characters (every segment except the last has length `limit`). -/
theorem claim_C1 (limit : Nat) (text : List Char) (hlim : 1 ≤ limit) :
    (∀ p ∈ splitTelegramMessage limit text, p.length ≤ limit)
    ∧ (∀ fuel, text.length < fuel →
        splitAux limit fuel text = splitTelegramMessage limit text)
    ∧ ((∀ c ∈ text, ¬(c = '\n' ∨ c = ' ')) →
        ∀ p ∈ (splitTelegramMessage limit text).dropLast, p.length = limit) := by
  refine ⟨?_, ?_, ?_⟩
  · exact splitAux_length_le limit hlim _ text (Nat.lt_succ_self _)
  · intro fuel hf
    exact splitAux_fuel_stable limit hlim fuel _ text hf (Nat.lt_succ_self _)
  · intro hnb
    exact splitAux_hardcut limit hlim _ text (Nat.lt_succ_self _) hnb

theorem claim_C1_witness :
    1 ≤ 3 ∧
      ((∀ p ∈ splitTelegramMessage 3 "ab cd\nxy zz".data, p.length ≤ 3)
       ∧ (∀ fuel, ("ab cd\nxy zz".data).length < fuel →
           splitAux 3 fuel "ab cd\nxy zz".data = splitTelegramMessage 3 "ab cd\nxy zz".data)
       ∧ ((∀ c ∈ "ab cd\nxy zz".data, ¬(c = '\n' ∨ c = ' ')) →
           ∀ p ∈ (splitTelegramMessage 3 "ab cd\nxy zz".data).dropLast, p.length = 3)) :=
  ⟨by decide, claim_C1 3 "ab cd\nxy zz".data (by decide)⟩

/-- C2: for every input text and every chunk limit ≥ 1, concatenating the
segments returned by `_split_telegram_message`, re-inserting after each
segment the (all-whitespace) run that the splitter stripped from the
remainder at that cut, reproduces the original text exactly; moreover the
segment list is empty exactly when the input text is empty. -/
theorem claim_C2 (limit : Nat) (text : List Char) (hlim : 1 ≤ limit) :
    (splitWithWs limit text).map Prod.fst = splitTelegramMessage limit text
    ∧ joinWs (splitWithWs limit text) = text
    ∧ (∀ pw ∈ splitWithWs limit text, ∀ c ∈ pw.2, pyIsSpace c)
    ∧ (splitTelegramMessage limit text = [] ↔ text = []) := by
  refine ⟨?_, ?_, ?_, ?_⟩
  · exact splitAuxWs_fst limit _ text
  · exact splitAuxWs_join limit hlim _ text (Nat.lt_succ_self _)
  · exact splitAuxWs_ws_space limit _ text
  · exact splitTelegramMessage_nil_iff limit text

theorem claim_C2_witness :
    1 ≤ 3 ∧
      ((splitWithWs 3 "ab cd".data).map Prod.fst = splitTelegramMessage 3 "ab cd".data
       ∧ joinWs (splitWithWs 3 "ab cd".data) = "ab cd".data
       ∧ (∀ pw ∈ splitWithWs 3 "ab cd".data, ∀ c ∈ pw.2, pyIsSpace c)
       ∧ (splitTelegramMessage 3 "ab cd".data = [] ↔ "ab cd".data = [])) :=
  ⟨by decide, claim_C2 3 "ab cd".data (by decide)⟩

/-- ASCII lowering of one character, as Python `str.lower` acts on the
language codes handled by the repository. -/
def asciiLower (c : Char) : Char :=
  if 'A' ≤ c ∧ c ≤ 'Z' then Char.ofNat (c.toNat + 32) else c

/-- Python `s.lower()` (ASCII range). -/
def pyLower (s : String) : String := String.mk (s.data.map asciiLower)

/-- Python `s.startswith(pre)`. -/
def pyStartsWith (s pre : String) : Bool := pre.data.isPrefixOf s.data

/-- Python `s.strip()` (both ends). -/
def pyStrip (s : String) : String :=
  String.mk (((s.data.dropWhile pyIsSpace).reverse.dropWhile pyIsSpace).reverse)

/-- The `I18N` template registry of src/utils/i18n.py, keyed by template
key then language. -/
def I18N (key lang : String) : Option String :=
  match key, lang with
  | "welcome", "en" => some "👋 Hi! Send me a *voice* or *text* message in English or Spanish and I will return:\n1) **Transcription / Your text** 📝\n2) **Translation** 🔁\n3) **Emotion/intent** 🎭\n\nUse /help to see options. You can change language with /lang."
  | "welcome", "es" => some "👋 ¡Hola! Envíame una *nota de voz* o un *mensaje de texto* en inglés o español y te devolveré:\n1) **Transcripción / Tu texto** 📝\n2) **Traducción** 🔁\n3) **Emoción/Intención** 🎭\n\nUsa /help para ver opciones. Puedes cambiar el idioma con /lang."
  | "help", "en" => some "📌 Commands:\n/start - Welcome\n/help - This help\n/about - About this bot\n/lang - Choose bot language (English/Spanish)\n\n🎤 Features:\n- *Voice* (English/Spanish): transcription + translation + emotion.\n- *Text* (English/Spanish): translation + emotion (emotions computed in English)."
  | "help", "es" => some "📌 Comandos:\n/start - Bienvenida\n/help - Esta ayuda\n/about - Sobre este bot\n/lang - Elegir idioma del bot (Español/Inglés)\n\n🎤 Funciones:\n- *Voz* (inglés/español): transcripción + traducción + emoción.\n- *Texto* (inglés/español): traducción + emoción."
  | "about", "en" => some "🤖 Demo: python-telegram-bot v21 + faster-whisper (ASR) + MarianMT (translation) + GoEmotions (emotion). Detects language (en/es), transcribes/reads text, translates, and classifies emotions."
  | "about", "es" => some "🤖 Demo: python-telegram-bot v21 + faster-whisper (ASR) + MarianMT (traducción) + GoEmotions (emoción). Detecta idioma (es/en), transcribe/lee texto, traduce y clasifica emociones."
  | "choose_lang", "en" => some "Please choose the bot language:"
  | "choose_lang", "es" => some "Elige el idioma del bot:"
  | "lang_set", "en" => some "✅ Language set to English."
  | "lang_set", "es" => some "✅ Idioma configurado a Español."
  | "unknown_cmd", "en" => some "Unknown command. Try /help 😉"
  | "unknown_cmd", "es" => some "Comando no reconocido. Prueba /help 😉"
  | "no_transcription", "en" => some "❌ Could not transcribe anything. Please try again."
  | "no_transcription", "es" => some "❌ No pude transcribir nada. Por favor, inténtalo de nuevo."
  | "analysis_skipped", "en" => some "not processed (analysis skipped)."
  | "analysis_skipped", "es" => some "no procesadas (se omite análisis)."
  | "translation_skipped", "en" => some "ℹ️ Not English/Spanish, translation skipped."
  | "translation_skipped", "es" => some "ℹ️ No es inglés/español; se omitió la traducción."
  | "transcription_header", "en" => some "📝 Transcription {flag} (lang: {lang}, confidence: {conf}%):\n"
  | "transcription_header", "es" => some "📝 Transcripción {flag} (idioma: {lang}, confianza: {conf}%):\n"
  | "emotion_header", "en" => some "🎭 Detected emotion(s): {emo}"
  | "emotion_header", "es" => some "🎭 Emoción(es) detectada(s): {emo}"
  | "you_wrote", "en" => some "📝 You wrote {flag} ({lang}):\n"
  | "you_wrote", "es" => some "📝 Has escrito {flag} (idioma: {lang}):\n"
  | "translation_header", "en" => some "🔁 Translation {flag} ({src}→{tgt}):\n"
  | "translation_header", "es" => some "🔁 Traducción {flag} ({src}→{tgt}):\n"
  | _, _ => none

/-- Lookup of a named placeholder during `str.format(**kwargs)`.  The call
sites in src/bot.py always pass every placeholder that their template uses,
so the missing-key `KeyError` path of Python is modelled as the empty
string (it is unreachable in the embedded handlers). -/
def lookupEnv (env : List (String × String)) (nm : String) : String :=
  match env.find? (fun kv => kv.1 == nm) with
  | some kv => kv.2
  | none => ""

/-- Substitution core of Python `template.format(**kwargs)` for the simple
`\x7bname\x7d` placeholders used by the registry (no format specs, no brace
escapes occur in any template).  Fuel-indexed to keep the recursion
structural; `pyFormat` supplies enough fuel. -/
def pyFormatAux (env : List (String × String)) : Nat → List Char → List Char
  | 0, _ => []
  | _ + 1, [] => []
  | fuel + 1, c :: rest =>
      if c = Char.ofNat 123 then
        let nm := rest.takeWhile (fun d => d ≠ Char.ofNat 125)
        let rest2 := (rest.dropWhile (fun d => d ≠ Char.ofNat 125)).drop 1
        (lookupEnv env (String.mk nm)).data ++ pyFormatAux env fuel rest2
      else c :: pyFormatAux env fuel rest

/-- Python `template.format(**kwargs)` for the registry templates. -/
def pyFormat (template : String) (env : List (String × String)) : String :=
  String.mk (pyFormatAux env (template.data.length + 1) template.data)

/-- Locale-prefix resolution shared by `t` and `get_user_lang`
(src/utils/i18n.py lines 105-111 and 123-128): `es*` → Spanish, `en*` →
English, default English. -/
def langFromCode (code : String) : String :=
  let c := pyLower code
  if pyStartsWith c "es" then "es" else if pyStartsWith c "en" then "en" else "en"

/-- Language-preference resolution of `t` (src/utils/i18n.py lines 103-111):
a stored preference wins unless it is falsy (absent or the empty string),
otherwise the platform locale prefix decides, defaulting to English. -/
def resolvePref (stored : Option String) (code : String) : String :=
  match stored with
  | some p => if p = "" then langFromCode code else p
  | none => langFromCode code

/-- Template lookup of `t` (src/utils/i18n.py lines 112-113):
`I18N.get(key, \x7b\x7d).get(lang_pref) or I18N.get(key, \x7b\x7d).get("en", "")`.
Note the Python `or`: an empty template in the resolved language also falls
back to the English variant. -/
def tLookup (key pref : String) : String :=
  match I18N key pref with
  | some s => if s = "" then (I18N key "en").getD "" else s
  | none => (I18N key "en").getD ""

/-- Embedding of `t(user_id, key, **kwargs)` of src/utils/i18n.py (lines 98-114), with the
shared `USER_LANG` dict passed explicitly as `store` and the popped
`telegram_lang_code` kwarg as `tgCode`. -/
def t (store : Nat → Option String) (uid : Nat) (key : String) (tgCode : String)
    (env : List (String × String)) : String :=
  pyFormat (tLookup key (resolvePref (store uid) tgCode)) env

/-- Embedding of `get_user_lang(user_id, telegram_lang_code)` of src/utils/i18n.py
(lines 117-128). -/
def get_user_lang (store : Nat → Option String) (uid : Nat) (code : String) : String :=
  match store uid with
  | some v => v
  | none =>
      let c := pyLower code
      if pyStartsWith c "es" then "es" else if pyStartsWith c "en" then "en" else "en"

/-- Python `data.split(":", 1)[1]` for the strings guarded by
`data.startswith("setlang:")` in `on_setlang`. -/
def afterFirstColon (s : List Char) : List Char :=
  (s.dropWhile (fun c => c ≠ ':')).drop 1

/-- The `USER_LANG` state transition of `BotApp.on_setlang` (src/bot.py
lines 124-136): the single write site of the shared preference map. -/
def on_setlang (store : Nat → Option String) (uid : Nat) (data : String) :
    Nat → Option String :=
  if pyStartsWith data "setlang:" then
    let lang := String.mk (afterFirstColon data.data)
    if lang = "es" ∨ lang = "en" then
      fun u => if u = uid then some lang else store u
    else store
  else store

theorem get_user_lang_mem (store : Nat → Option String)
    (hinv : ∀ u v, store u = some v → v = "en" ∨ v = "es")
    (uid : Nat) (code : String) :
    get_user_lang store uid code = "en" ∨ get_user_lang store uid code = "es" := by
  unfold get_user_lang
  cases hs : store uid with
  | some v => exact hinv uid v hs
  | none =>
      by_cases h1 : pyStartsWith (pyLower code) "es" = true
      · right; simp [h1]
      · simp only [Bool.not_eq_true] at h1
        by_cases h2 : pyStartsWith (pyLower code) "en" = true
        · left; simp [h1, h2]
        · simp only [Bool.not_eq_true] at h2
          left; simp [h1, h2]

theorem on_setlang_eq (store : Nat → Option String) (uid : Nat) (data : String) (u : Nat) :
    on_setlang store uid data u =
      if pyStartsWith data "setlang:" = true
          ∧ (String.mk (afterFirstColon data.data) = "es"
             ∨ String.mk (afterFirstColon data.data) = "en")
          ∧ u = uid
      then some (String.mk (afterFirstColon data.data))
      else store u := by
  unfold on_setlang
  by_cases h1 : pyStartsWith data "setlang:" = true <;>
    by_cases h2 : (String.mk (afterFirstColon data.data) = "es"
        ∨ String.mk (afterFirstColon data.data) = "en") <;>
      by_cases h3 : u = uid <;>
        simp [h1, h2, h3]

theorem on_setlang_preserves (store : Nat → Option String)
    (hinv : ∀ u v, store u = some v → v = "en" ∨ v = "es")
    (uid : Nat) (data : String) :
    ∀ u v, on_setlang store uid data u = some v → v = "en" ∨ v = "es" := by
  intro u v h
  rw [on_setlang_eq] at h
  split at h
  · rename_i hc
    injection h with h2
    subst h2
    tauto
  · exact hinv u v h

/-- C10: every value stored in the shared `USER_LANG` map is `"en"` or
`"es"` — the single write site `on_setlang` preserves this invariant for any
selection payload — and consequently `get_user_lang` returns `"en"` or
`"es"` for every user id and platform locale hint. -/
theorem claim_C10 (store : Nat → Option String)
    (hinv : ∀ u v, store u = some v → v = "en" ∨ v = "es")
    (uid : Nat) (data : String) (uid2 : Nat) (hint : String) :
    (∀ u v, on_setlang store uid data u = some v → v = "en" ∨ v = "es")
    ∧ (get_user_lang store uid2 hint = "en" ∨ get_user_lang store uid2 hint = "es")
    ∧ (get_user_lang (on_setlang store uid data) uid2 hint = "en"
       ∨ get_user_lang (on_setlang store uid data) uid2 hint = "es") :=
  ⟨on_setlang_preserves store hinv uid data,
   get_user_lang_mem store hinv uid2 hint,
   get_user_lang_mem _ (on_setlang_preserves store hinv uid data) uid2 hint⟩

theorem claim_C10_witness :
    (∀ u v, on_setlang (fun _ => none) 5 "setlang:es" u = some v → v = "en" ∨ v = "es")
    ∧ (get_user_lang (fun _ => none) 9 "pt-BR" = "en"
       ∨ get_user_lang (fun _ => none) 9 "pt-BR" = "es")
    ∧ (get_user_lang (on_setlang (fun _ => none) 5 "setlang:es") 9 "pt-BR" = "en"
       ∨ get_user_lang (on_setlang (fun _ => none) 5 "setlang:es") 9 "pt-BR" = "es") :=
  claim_C10 (fun _ => none) (fun _ _ h => Option.noConfusion h) 5 "setlang:es" 9 "pt-BR"

/-- C7: template localization resolves the language as: explicit stored user
preference if present (independently of the platform hint), otherwise the
platform locale prefix (`es*` → Spanish, anything else → English, which
covers both the `en*` rule and the English default); a key missing in the
resolved language falls back to the English variant of the same key, and if
neither variant exists the rendered result is the empty string. -/
theorem claim_C7 (store : Nat → Option String) (uid : Nat) (key tgCode : String)
    (env : List (String × String)) :
    (∀ p, store uid = some p → p ≠ "" →
        t store uid key tgCode env = pyFormat (tLookup key p) env
        ∧ ∀ tg2, t store uid key tgCode env = t store uid key tg2 env)
    ∧ (store uid = none → pyStartsWith (pyLower tgCode) "es" = true →
        t store uid key tgCode env = pyFormat (tLookup key "es") env)
    ∧ (store uid = none → pyStartsWith (pyLower tgCode) "es" = false →
        t store uid key tgCode env = pyFormat (tLookup key "en") env)
    ∧ (∀ pref, I18N key pref = none → tLookup key pref = (I18N key "en").getD "")
    ∧ (I18N key (resolvePref (store uid) tgCode) = none → I18N key "en" = none →
        t store uid key tgCode env = "") := by
  refine ⟨?_, ?_, ?_, ?_, ?_⟩
  · intro p hp hne
    refine ⟨?_, ?_⟩
    · simp [t, resolvePref, hp, hne]
    · intro tg2
      simp [t, resolvePref, hp, hne]
  · intro hn hes
    simp [t, resolvePref, hn, langFromCode, hes]
  · intro hn hes
    by_cases hen : pyStartsWith (pyLower tgCode) "en" = true
    · simp [t, resolvePref, hn, langFromCode, hes, hen]
    · simp only [Bool.not_eq_true] at hen
      simp [t, resolvePref, hn, langFromCode, hes, hen]
  · intro pref hnone
    simp [tLookup, hnone]
  · intro h1 h2
    simp only [t, tLookup, h1, h2, Option.getD_none]
    rfl

theorem claim_C7_witness :
    t (fun _ => some "es") 0 "welcome" "en-US" [] = pyFormat (tLookup "welcome" "es") []
    ∧ t (fun _ => some "xx") 0 "lang_set" "" [] = "✅ Language set to English."
    ∧ t (fun _ => none) 0 "no_such_key" "fr" [] = "" := by
  refine ⟨((claim_C7 (fun _ => some "es") 0 "welcome" "en-US" []).1 "es" rfl (by decide)).1,
    ?_, ?_⟩
  · have h := ((claim_C7 (fun _ => some "xx") 0 "lang_set" "" []).1 "xx" rfl (by decide)).1
    rw [h]
    decide
  · exact (claim_C7 (fun _ => none) 0 "no_such_key" "fr" []).2.2.2.2 (by decide) (by decide)

/-- The two languages the Lingua detector is built from
(`LanguageDetectorBuilder.from_languages(ENGLISH, SPANISH)`). -/
inductive Lingua where
  | english
  | spanish
deriving DecidableEq

/-- The Lingua detector capability used by `detect_lang_text`
(src/utils/asr_translate.py lines 20-32): `detect_language_of` may return a
language or `None`, `compute_language_confidence_values` returns per-language
confidences; either call may raise (`Except.error`). -/
structure LinguaCap where
  detectOf : String → Except Unit (Option Lingua)
  confidences : String → Except Unit (List (Lingua × ℚ))

/-- Python `max(seq, key=lambda c: c.value)`: first element of maximal value
(later elements replace the best only when strictly greater); `none` for the
empty sequence (where `detect_lang_text` skips the comparison). -/
def pyMaxBy : List (Lingua × ℚ) → Option (Lingua × ℚ)
  | [] => none
  | x :: xs => some (xs.foldl (fun b y => if b.2 < y.2 then y else b) x)

/-- The `try` block of `detect_lang_text` (src/utils/asr_translate.py lines
18-40): direct Lingua classification, then the confidence-threshold decision
at 0.70, returning `"other"` when neither settles it. -/
def linguaPrimary (cap : LinguaCap) (text : String) : Except Unit String :=
  match cap.detectOf text with
  | .error e => .error e
  | .ok (some .english) => .ok "en"
  | .ok (some .spanish) => .ok "es"
  | .ok none =>
      match cap.confidences text with
      | .error e => .error e
      | .ok confs =>
          match pyMaxBy confs with
          | some best =>
              if (7 : ℚ)/10 ≤ best.2 then
                .ok (match best.1 with | .english => "en" | .spanish => "es")
              else .ok "other"
          | none => .ok "other"

/-- The langdetect fallback of `detect_lang_text` (src/utils/asr_translate.py
lines 44-52): single best guess with a two-letter prefix match, `"other"` on
any error. -/
def secondaryDetect (secondary : String → Except Unit String) (text : String) : String :=
  match secondary text with
  | .ok code =>
      let c := pyLower code
      if pyStartsWith c "en" then "en"
      else if pyStartsWith c "es" then "es"
      else "other"
  | .error _ => "other"

/-- Embedding of `detect_lang_text(text)` of src/utils/asr_translate.py (lines 9-52). -/
def detect_lang_text (cap : LinguaCap) (secondary : String → Except Unit String)
    (text : String) : String :=
  if text.data.all pyIsSpace then "other"
  else
    match linguaPrimary cap text with
    | .ok r => r
    | .error _ => secondaryDetect secondary text

theorem linguaPrimary_ok_mem (cap : LinguaCap) (text : String) (r : String)
    (h : linguaPrimary cap text = .ok r) : r = "en" ∨ r = "es" ∨ r = "other" := by
  unfold linguaPrimary at h
  cases hd : cap.detectOf text with
  | error e => rw [hd] at h; simp at h
  | ok lg =>
      rw [hd] at h
      match lg with
      | some .english => simp at h; tauto
      | some .spanish => simp at h; tauto
      | none =>
          simp only at h
          cases hc : cap.confidences text with
          | error e => rw [hc] at h; simp at h
          | ok confs =>
              rw [hc] at h
              simp only at h
              cases hmx : pyMaxBy confs with
              | none => rw [hmx] at h; simp at h; tauto
              | some best =>
                  rw [hmx] at h
                  simp only at h
                  split at h
                  · cases best with
                    | mk lg2 q =>
                        match lg2 with
                        | .english => simp at h; tauto
                        | .spanish => simp at h; tauto
                  · simp at h; tauto

/-- C9: language identification always returns one of `"en"`, `"es"`,
`"other"` (it never raises); empty or whitespace-only input resolves to
`"other"` for every detector capability (so no detector is consulted); an
error raised inside the primary (Lingua) path falls back to the secondary
(langdetect) detector with two-letter prefix matching; and an error from the
secondary as well resolves to `"other"`. -/
theorem claim_C9 (cap : LinguaCap) (secondary : String → Except Unit String)
    (text : String) :
    (detect_lang_text cap secondary text = "en"
     ∨ detect_lang_text cap secondary text = "es"
     ∨ detect_lang_text cap secondary text = "other")
    ∧ (text.data.all pyIsSpace = true →
        ∀ (cap2 : LinguaCap) (sec2 : String → Except Unit String),
          detect_lang_text cap2 sec2 text = "other")
    ∧ (text.data.all pyIsSpace = false →
        linguaPrimary cap text = .error () →
        detect_lang_text cap secondary text =
          (match secondary text with
           | .ok code =>
               if pyStartsWith (pyLower code) "en" then "en"
               else if pyStartsWith (pyLower code) "es" then "es"
               else "other"
           | .error _ => "other"))
    ∧ (text.data.all pyIsSpace = false →
        linguaPrimary cap text = .error () →
        secondary text = .error () →
        detect_lang_text cap secondary text = "other") := by
  refine ⟨?_, ?_, ?_, ?_⟩
  · unfold detect_lang_text
    by_cases hw : text.data.all pyIsSpace = true
    · simp [hw]
    · simp only [Bool.not_eq_true] at hw
      simp only [hw, Bool.false_eq_true, if_false]
      cases hp : linguaPrimary cap text with
      | ok r => exact linguaPrimary_ok_mem cap text r hp
      | error e =>
          unfold secondaryDetect
          cases hs : secondary text with
          | ok code =>
              by_cases h1 : pyStartsWith (pyLower code) "en" = true
              · simp [h1]
              · simp only [Bool.not_eq_true] at h1
                by_cases h2 : pyStartsWith (pyLower code) "es" = true
                · simp [h1, h2]
                · simp only [Bool.not_eq_true] at h2
                  simp [h1, h2]
          | error e2 => tauto
  · intro hw cap2 sec2
    simp [detect_lang_text, hw]
  · intro hw hp
    simp [detect_lang_text, hw, hp, secondaryDetect]
  · intro hw hp hs
    simp [detect_lang_text, hw, hp, secondaryDetect, hs]

theorem claim_C9_witness :
    ((detect_lang_text ⟨fun _ => .error (), fun _ => .error ()⟩ (fun _ => .ok "EN-us") "hola" = "en"
      ∨ detect_lang_text ⟨fun _ => .error (), fun _ => .error ()⟩ (fun _ => .ok "EN-us") "hola" = "es"
      ∨ detect_lang_text ⟨fun _ => .error (), fun _ => .error ()⟩ (fun _ => .ok "EN-us") "hola" = "other"))
    ∧ detect_lang_text ⟨fun _ => .ok (some .english), fun _ => .ok []⟩ (fun _ => .ok "es") " \t " = "other"
    ∧ detect_lang_text ⟨fun _ => .error (), fun _ => .error ()⟩ (fun _ => .ok "EN-us") "hola" = "en"
    ∧ detect_lang_text ⟨fun _ => .error (), fun _ => .error ()⟩ (fun _ => .error ()) "hola" = "other" := by
  have h := claim_C9 ⟨fun _ => .error (), fun _ => .error ()⟩ (fun _ => .ok "EN-us") "hola"
  refine ⟨h.1, ?_, ?_, ?_⟩
  · exact (claim_C9 ⟨fun _ => .ok (some .english), fun _ => .ok []⟩ (fun _ => .ok "es") " \t ").2.1
      (by decide) _ _
  · rw [h.2.2.1 (by decide) rfl]
    decide
  · exact (claim_C9 ⟨fun _ => .error (), fun _ => .error ()⟩ (fun _ => .error ()) "hola").2.2.2
      (by decide) rfl rfl

/-- Embedding of `translate_text(detected_lang, text)` of src/utils/asr_translate.py
(lines 90-113).  The two MarianMT pipelines (tokenize, generate with the
fixed `max_new_tokens` budget, decode) are the external capabilities
`runEnEs` / `runEsEn`; `none` stands for any exception they raise, which the
`try/except` of the source turns into the `(text, "same")` passthrough. -/
def translate_text (runEnEs runEsEn : String → Option String)
    (detected_lang text : String) : String × String :=
  if text = "" then ("", "same")
  else
    let code := pyLower detected_lang
    if pyStartsWith code "en" then
      match runEnEs text with
      | some out => (pyStrip out, "es")
      | none => (text, "same")
    else if pyStartsWith code "es" then
      match runEsEn text with
      | some out => (pyStrip out, "en")
      | none => (text, "same")
    else (text, "same")

/-- Embedding of `flag_for_lang(code)` of src/utils/asr_translate.py (lines 116-125). -/
def flag_for_lang (code : String) : String :=
  let c := pyLower code
  if pyStartsWith c "en" then "🇬🇧"
  else if pyStartsWith c "es" then "🇪🇸"
  else "🌐"

/-- C5: for every non-empty text and every source-language code whose
lowercased form starts with neither `en` nor `es`, the translator returns
the original text unchanged with target `"same"`; and whenever the
underlying translation capability of the selected route raises, it likewise
returns `(original_text, "same")` instead of propagating — the function is
total, so translation never raises. -/
theorem claim_C5 (runEnEs runEsEn : String → Option String)
    (lang text : String) :
    (text ≠ "" →
      pyStartsWith (pyLower lang) "en" = false →
      pyStartsWith (pyLower lang) "es" = false →
      translate_text runEnEs runEsEn lang text = (text, "same"))
    ∧ (pyStartsWith (pyLower lang) "en" = true →
        runEnEs text = none →
        translate_text runEnEs runEsEn lang text = (text, "same"))
    ∧ (pyStartsWith (pyLower lang) "en" = false →
        pyStartsWith (pyLower lang) "es" = true →
        runEsEn text = none →
        translate_text runEnEs runEsEn lang text = (text, "same")) := by
  refine ⟨?_, ?_, ?_⟩
  · intro hne h1 h2
    simp [translate_text, hne, h1, h2]
  · intro h1 hr
    by_cases hne : text = ""
    · subst hne
      simp [translate_text]
    · simp [translate_text, hne, h1, hr]
  · intro h1 h2 hr
    by_cases hne : text = ""
    · subst hne
      simp [translate_text]
    · simp [translate_text, hne, h1, h2, hr]

theorem claim_C5_witness :
    ("hello" ≠ "" ∧ translate_text (fun _ => some "hola") (fun _ => some "hi") "xx" "hello" = ("hello", "same"))
    ∧ translate_text (fun _ => none) (fun _ => some "hi") "en-GB" "good" = ("good", "same")
    ∧ translate_text (fun _ => some "hola") (fun _ => none) "ES" "vale" = ("vale", "same") := by
  refine ⟨⟨by decide, ?_⟩, ?_, ?_⟩
  · exact (claim_C5 (fun _ => some "hola") (fun _ => some "hi") "xx" "hello").1
      (by decide) (by decide) (by decide)
  · exact (claim_C5 (fun _ => none) (fun _ => some "hi") "en-GB" "good").2.1 (by decide) rfl
  · exact (claim_C5 (fun _ => some "hola") (fun _ => none) "ES" "vale").2.2
      (by decide) (by decide) rfl

/-- Descending order on scored labels: `emoGE a b` when the score of `a` is
at least that of `b`, mirroring Python `sorted(scores, key=..., reverse=True)`. -/
def emoGE : (String × ℚ) → (String × ℚ) → Prop := fun a b => b.2 ≤ a.2

instance : DecidableRel emoGE := fun a b => inferInstanceAs (Decidable (b.2 ≤ a.2))

instance : IsTotal (String × ℚ) emoGE := ⟨fun a b => le_total b.2 a.2⟩

instance : IsTrans (String × ℚ) emoGE := ⟨fun _ _ _ h1 h2 => le_trans h2 h1⟩

/-- Embedding of `detect_emotions(text, top_k, threshold)` of src/utils/emotions.py
(lines 114-129).  The GoEmotions pipe output for a text is the capability
`scoresOf`; the stable descending Python `sorted` is `insertionSort emoGE`.
Python would raise `IndexError` at `scores[0]` if the pipe returned an empty
score list (it returns the fixed 28-category list); that unreachable case is
modelled as the empty result. -/
def detect_emotions (scoresOf : String → List (String × ℚ)) (text : String)
    (top_k : Nat) (threshold : ℚ) : List (String × ℚ) :=
  if text = "" then []
  else
    let sorted := (scoresOf text).insertionSort emoGE
    let picked := sorted.filter (fun s => decide (threshold ≤ s.2))
    let picked2 := if picked.isEmpty then
        (match sorted with | [] => [] | s :: _ => [s])
      else picked
    picked2.take top_k

/-- C4: for every non-empty text (and a scoring capability returning at
least one category, as the fixed 28-category GoEmotions head does),
classification with `top_k = 3`, `threshold = 0.30` returns a non-empty
list of at most 3 scored labels drawn from the capability output, sorted
in descending score order; it is exactly the threshold-filtered sorted list
truncated to 3 when some category clears the threshold, and exactly the
single highest-scoring category otherwise; empty text returns `[]`. -/
theorem claim_C4 (scoresOf : String → List (String × ℚ)) (text : String)
    (ht : text ≠ "") (hs : scoresOf text ≠ []) :
    detect_emotions scoresOf text 3 ((3 : ℚ)/10) ≠ []
    ∧ (detect_emotions scoresOf text 3 ((3 : ℚ)/10)).length ≤ 3
    ∧ (detect_emotions scoresOf text 3 ((3 : ℚ)/10)).Pairwise emoGE
    ∧ (∀ x ∈ detect_emotions scoresOf text 3 ((3 : ℚ)/10), x ∈ scoresOf text)
    ∧ (((scoresOf text).insertionSort emoGE).filter
          (fun s => decide ((3 : ℚ)/10 ≤ s.2)) ≠ [] →
        detect_emotions scoresOf text 3 ((3 : ℚ)/10) =
          (((scoresOf text).insertionSort emoGE).filter
            (fun s => decide ((3 : ℚ)/10 ≤ s.2))).take 3)
    ∧ (((scoresOf text).insertionSort emoGE).filter
          (fun s => decide ((3 : ℚ)/10 ≤ s.2)) = [] →
        ∃ m, detect_emotions scoresOf text 3 ((3 : ℚ)/10) = [m]
          ∧ m ∈ scoresOf text ∧ ∀ x ∈ scoresOf text, x.2 ≤ m.2)
    ∧ detect_emotions scoresOf "" 3 ((3 : ℚ)/10) = [] := by
  have hperm := List.perm_insertionSort emoGE (scoresOf text)
  have hsorted : ((scoresOf text).insertionSort emoGE).Pairwise emoGE :=
    List.sorted_insertionSort emoGE (scoresOf text)
  have hmem : ∀ x, x ∈ (scoresOf text).insertionSort emoGE ↔ x ∈ scoresOf text :=
    fun x => hperm.mem_iff
  have hSne : (scoresOf text).insertionSort emoGE ≠ [] := by
    intro hnil
    exact hs (List.Perm.nil_eq (hnil ▸ hperm)).symm
  have hdef : detect_emotions scoresOf text 3 ((3 : ℚ)/10) =
      (if (((scoresOf text).insertionSort emoGE).filter
            (fun s => decide ((3 : ℚ)/10 ≤ s.2))).isEmpty then
        (match (scoresOf text).insertionSort emoGE with | [] => [] | s :: _ => [s])
      else ((scoresOf text).insertionSort emoGE).filter
            (fun s => decide ((3 : ℚ)/10 ≤ s.2))).take 3 := by
    simp only [detect_emotions, ht, if_false]
  by_cases hp : ((scoresOf text).insertionSort emoGE).filter
      (fun s => decide ((3 : ℚ)/10 ≤ s.2)) = []
  · cases hS : (scoresOf text).insertionSort emoGE with
    | nil => exact absurd hS hSne
    | cons m rest =>
        have hres : detect_emotions scoresOf text 3 ((3 : ℚ)/10) = [m] := by
          rw [hdef, hS]
          rw [hS] at hp
          simp [hp]
        have hmmem : m ∈ scoresOf text := (hmem m).mp (hS ▸ List.mem_cons_self m rest)
        have hmax : ∀ x ∈ scoresOf text, x.2 ≤ m.2 := by
          intro x hx
          have hxS : x ∈ (scoresOf text).insertionSort emoGE := (hmem x).mpr hx
          rw [hS] at hxS
          rcases List.mem_cons.mp hxS with rfl | hxr
          · exact le_refl _
          · exact (List.rel_of_pairwise_cons (hS ▸ hsorted) hxr : emoGE m x)
        refine ⟨by rw [hres]; exact List.cons_ne_nil m [], by rw [hres]; simp,
          by rw [hres]; simp, ?_, fun hcontra => absurd (hS ▸ hp) hcontra, ?_, by simp [detect_emotions]⟩
        · intro x hx
          rw [hres] at hx
          rcases List.mem_singleton.mp hx with rfl
          exact hmmem
        · intro _
          exact ⟨m, hres, hmmem, hmax⟩
  · have hres : detect_emotions scoresOf text 3 ((3 : ℚ)/10) =
        (((scoresOf text).insertionSort emoGE).filter
          (fun s => decide ((3 : ℚ)/10 ≤ s.2))).take 3 := by
      rw [hdef]
      have : (((scoresOf text).insertionSort emoGE).filter
          (fun s => decide ((3 : ℚ)/10 ≤ s.2))).isEmpty = false := by
        simpa [List.isEmpty_iff] using hp
      simp [this]
    refine ⟨?_, by rw [hres]; simp [List.length_take], ?_, ?_, fun _ => hres,
      fun hcontra => absurd hcontra hp, by simp [detect_emotions]⟩
    · rw [hres]
      cases hfe : ((scoresOf text).insertionSort emoGE).filter
          (fun s => decide ((3 : ℚ)/10 ≤ s.2)) with
      | nil => exact absurd hfe hp
      | cons q qs => simp
    · rw [hres]
      exact (hsorted.filter _).sublist (List.take_sublist _ _)
    · intro x hx
      rw [hres] at hx
      have hxf := List.take_subset 3 _ hx
      have hxS := List.mem_of_mem_filter hxf
      exact (hmem x).mp hxS

theorem claim_C4_witness :
    ("good" ≠ "" ∧ (fun (_ : String) => [("joy", (1 : ℚ)), ("anger", (0 : ℚ))]) "good" ≠ [])
    ∧ (detect_emotions (fun _ => [("joy", (1 : ℚ)), ("anger", (0 : ℚ))]) "good" 3 ((3 : ℚ)/10) ≠ []
       ∧ (detect_emotions (fun _ => [("joy", (1 : ℚ)), ("anger", (0 : ℚ))]) "good" 3 ((3 : ℚ)/10)).length ≤ 3) :=
  ⟨⟨by decide, by decide⟩,
   (claim_C4 (fun _ => [("joy", (1 : ℚ)), ("anger", (0 : ℚ))]) "good" (by decide) (by decide)).1,
   ((claim_C4 (fun _ => [("joy", (1 : ℚ)), ("anger", (0 : ℚ))]) "good" (by decide) (by decide)).2).1⟩
/-- The `EMOJI_MAP` table of src/utils/emotions.py (strings embedded byte-for-byte
as they appear in the source file). -/
def EMOJI_MAP (label : String) : Option String :=
  match label with
  | "admiration" => some "ðŸ‘"
  | "amusement" => some "ðŸ˜„"
  | "anger" => some "ðŸ˜ "
  | "annoyance" => some "ðŸ˜’"
  | "approval" => some "ðŸ‘"
  | "caring" => some "ðŸ¤—"
  | "confusion" => some "ðŸ˜•"
  | "curiosity" => some "ðŸ¤”"
  | "desire" => some "ðŸ˜"
  | "disappointment" => some "ðŸ˜ž"
  | "disapproval" => some "ðŸ‘Ž"
  | "disgust" => some "ðŸ¤¢"
  | "embarrassment" => some "ðŸ˜³"
  | "excitement" => some "ðŸ¤©"
  | "fear" => some "ðŸ˜¨"
  | "gratitude" => some "ðŸ™"
  | "grief" => some "ðŸ˜¢"
  | "joy" => some "ðŸ˜Š"
  | "love" => some "â¤ï¸"
  | "nervousness" => some "ðŸ˜¬"
  | "optimism" => some "ðŸŒ¤ï¸"
  | "pride" => some "ðŸ¦"
  | "realization" => some "ðŸ’¡"
  | "relief" => some "ðŸ˜®â€ðŸ’¨"
  | "remorse" => some "ðŸ˜”"
  | "sadness" => some "ðŸ˜¢"
  | "surprise" => some "ðŸ˜®"
  | "neutral" => some "ðŸ˜"
  | _ => none

/-- The `EMOTION_LABELS_ES` table of src/utils/emotions.py (strings embedded byte-for-byte
as they appear in the source file). -/
def EMOTION_LABELS_ES (label : String) : Option String :=
  match label with
  | "admiration" => some "admiraciÃ³n"
  | "amusement" => some "diversiÃ³n"
  | "anger" => some "ira"
  | "annoyance" => some "molestia"
  | "approval" => some "aprobaciÃ³n"
  | "caring" => some "afecto"
  | "confusion" => some "confusiÃ³n"
  | "curiosity" => some "curiosidad"
  | "desire" => some "deseo"
  | "disappointment" => some "decepciÃ³n"
  | "disapproval" => some "desaprobaciÃ³n"
  | "disgust" => some "asco"
  | "embarrassment" => some "vergÃ¼enza"
  | "excitement" => some "entusiasmo"
  | "fear" => some "temor"
  | "gratitude" => some "gratitud"
  | "grief" => some "duelo"
  | "joy" => some "alegrÃ­a"
  | "love" => some "amor"
  | "nervousness" => some "nerviosismo"
  | "optimism" => some "optimismo"
  | "pride" => some "orgullo"
  | "realization" => some "revelaciÃ³n"
  | "relief" => some "alivio"
  | "remorse" => some "remordimiento"
  | "sadness" => some "tristeza"
  | "surprise" => some "sorpresa"
  | "neutral" => some "neutral"
  | _ => none

/-- The `EMOTION_LABELS_EN` table of src/utils/emotions.py (strings embedded byte-for-byte
as they appear in the source file). -/
def EMOTION_LABELS_EN (label : String) : Option String :=
  match label with
  | "admiration" => some "admiration"
  | "amusement" => some "amusement"
  | "anger" => some "anger"
  | "annoyance" => some "annoyance"
  | "approval" => some "approval"
  | "caring" => some "caring"
  | "confusion" => some "confusion"
  | "curiosity" => some "curiosity"
  | "desire" => some "desire"
  | "disappointment" => some "disappointment"
  | "disapproval" => some "disapproval"
  | "disgust" => some "disgust"
  | "embarrassment" => some "embarrassment"
  | "excitement" => some "excitement"
  | "fear" => some "fear"
  | "gratitude" => some "gratitude"
  | "grief" => some "grief"
  | "joy" => some "joy"
  | "love" => some "love"
  | "nervousness" => some "nervousness"
  | "optimism" => some "optimism"
  | "pride" => some "pride"
  | "realization" => some "realization"
  | "relief" => some "relief"
  | "remorse" => some "remorse"
  | "sadness" => some "sadness"
  | "surprise" => some "surprise"
  | "neutral" => some "neutral"
  | _ => none

/-- Embedding of `format_emotions(emolist, ui_lang)` of src/utils/emotions.py
(lines 132-143).  `renderScore` stands for the Python float formatting
`f"{score:.2f}"`, which is not statable exactly. -/
def format_emotions (renderScore : ℚ → String) (emolist : List (String × ℚ))
    (ui_lang : String) : String :=
  let labels := if ui_lang = "es" then EMOTION_LABELS_ES else EMOTION_LABELS_EN
  String.intercalate ", " (emolist.map (fun lr =>
    ((labels lr.1).getD lr.1) ++ " " ++ ((EMOJI_MAP lr.1).getD "ðŸŽ­")
      ++ " (" ++ renderScore lr.2 ++ ")"))

/-- Result of one run of the text-message handler: the messages sent via
`reply_text` in order, plus whether the Translator / Emotion Classifier
capabilities were reached on that control path. -/
structure EchoOut where
  sent : List String
  translatorCalled : Bool
  classifierCalled : Bool

/-- Embedding of `BotApp.echo_text` (src/bot.py lines 222-279) as a function of the
inbound message (user id, platform locale hint, text) and the capability
parameters.  The unsupported-language early exit replies with the literal
string hard-coded at src/bot.py line 231. -/
def echo_text (cap : LinguaCap) (sec : String → Except Unit String)
    (runEnEs runEsEn : String → Option String)
    (scoresOf : String → List (String × ℚ)) (renderScore : ℚ → String)
    (store : Nat → Option String) (uid : Nat) (tgCode : String)
    (text : String) : EchoOut :=
  let detected := detect_lang_text cap sec text
  if detected ≠ "en" ∧ detected ≠ "es" then
    { sent := ["no procesadas (se omite análisis)."],
      translatorCalled := false, classifierCalled := false }
  else
    let tr := translate_text runEnEs runEsEn detected text
    let translated := tr.1
    let target_lang := tr.2
    let emotion_text :=
      if detected = "en" then text
      else if detected = "es" then (if translated = "" then text else translated)
      else text
    let user_lang_ui := get_user_lang store uid tgCode
    let emotions := detect_emotions scoresOf emotion_text 3 ((3 : ℚ)/10)
    let emo_str := if emotions.isEmpty then "neutral 😐"
      else format_emotions renderScore emotions user_lang_ui
    let flag_src := if detected = "en" then "🇬🇧" else "🇪🇸"
    let header := t store uid "you_wrote" tgCode [("flag", flag_src), ("lang", detected)]
    let msgs2 := if target_lang ≠ "same" ∧ translated ≠ "" then
        [t store uid "translation_header" tgCode
            [("flag", if target_lang = "en" then "🇬🇧" else "🇪🇸"),
             ("src", detected), ("tgt", target_lang)]
          ++ translated]
      else []
    { sent := (header ++ text) :: msgs2
        ++ [t store uid "emotion_header" tgCode [("emo", emo_str)]],
      translatorCalled := true, classifierCalled := true }

/-- C3 (code bug): on a text message detected `other`, the handler does send
exactly one notice and reaches neither the Translator nor the Emotion
Classifier — but the notice is the hard-coded Spanish string of src/bot.py
line 231, not the localized `analysis_skipped` template the registry
provides: a user whose resolved UI language is English still receives the
Spanish notice, which differs from the localized one. -/
theorem claim_C3 :
    (echo_text ⟨fun _ => .ok none, fun _ => .ok []⟩ (fun _ => .error ())
        (fun _ => none) (fun _ => none) (fun _ => []) (fun _ => "")
        (fun _ => some "en") 7 "en" "asdkj qpwoe").sent
      = ["no procesadas (se omite análisis)."]
    ∧ (echo_text ⟨fun _ => .ok none, fun _ => .ok []⟩ (fun _ => .error ())
        (fun _ => none) (fun _ => none) (fun _ => []) (fun _ => "")
        (fun _ => some "en") 7 "en" "asdkj qpwoe").translatorCalled = false
    ∧ (echo_text ⟨fun _ => .ok none, fun _ => .ok []⟩ (fun _ => .error ())
        (fun _ => none) (fun _ => none) (fun _ => []) (fun _ => "")
        (fun _ => some "en") 7 "en" "asdkj qpwoe").classifierCalled = false
    ∧ t (fun _ => some "en") 7 "analysis_skipped" "en" []
        = "not processed (analysis skipped)."
    ∧ "no procesadas (se omite análisis)."
        ≠ t (fun _ => some "en") 7 "analysis_skipped" "en" [] := by
  refine ⟨?_, ?_, ?_, ?_, ?_⟩ <;> decide

/-- Result of one run of the voice handler, as for `EchoOut`. -/
structure VoiceOut where
  sent : List String
  translatorCalled : Bool
  classifierCalled : Bool

/-- Embedding of `BotApp.on_voice` (src/bot.py lines 140-220) downstream of the
transcription capability, whose result triple is passed in as
`(text, lang, confStr)` — `confStr` standing for the rendered
`f"{prob:.0f}"`.  Chunking uses the `TELEGRAM_MAX_MSG = 4096` default of
`_split_telegram_message` (src/utils/config.py line 4). -/
def on_voice (runEnEs runEsEn : String → Option String)
    (scoresOf : String → List (String × ℚ)) (renderScore : ℚ → String)
    (store : Nat → Option String) (uid : Nat) (tgCode : String)
    (text lang confStr : String) : VoiceOut :=
  if text = "" then
    { sent := [t store uid "no_transcription" tgCode []],
      translatorCalled := false, classifierCalled := false }
  else
    let user_lang_ui := get_user_lang store uid tgCode
    let tr := translate_text runEnEs runEsEn lang text
    let translated := tr.1
    let target_lang := tr.2
    let emotion_text :=
      if target_lang = "es" then text
      else if target_lang = "en" then (if translated = "" then text else translated)
      else text
    let emotions := detect_emotions scoresOf emotion_text 3 ((3 : ℚ)/10)
    let emo_str := if emotions.isEmpty then "neutral 😐"
      else format_emotions renderScore emotions user_lang_ui
    let header := t store uid "transcription_header" tgCode
      [("flag", flag_for_lang lang), ("lang", lang), ("conf", confStr)]
    let parts := (splitTelegramMessage 4096 text.data).map (fun l => String.mk l)
    let tparts := (splitTelegramMessage 4096 translated.data).map (fun l => String.mk l)
    let g2 := if target_lang ≠ "same" ∧ translated ≠ "" then
        (t store uid "translation_header" tgCode
            [("flag", if target_lang = "en" then "🇬🇧"
                      else if target_lang = "es" then "🇪🇸" else "🌐"),
             ("src", lang), ("tgt", target_lang)]
          ++ tparts.headD "") :: tparts.tail
      else [t store uid "translation_skipped" tgCode []]
    { sent := ((header ++ parts.headD "") :: parts.tail) ++ g2
        ++ [t store uid "emotion_header" tgCode [("emo", emo_str)]],
      translatorCalled := true, classifierCalled := true }

/-- C8: a voice message whose transcription text is empty produces exactly
one localized "no transcription" notice and returns before the Translator or
the Emotion Classifier is reached. -/
theorem claim_C8 (runEnEs runEsEn : String → Option String)
    (scoresOf : String → List (String × ℚ)) (renderScore : ℚ → String)
    (store : Nat → Option String) (uid : Nat) (tgCode lang confStr : String) :
    (on_voice runEnEs runEsEn scoresOf renderScore store uid tgCode "" lang confStr).sent
      = [t store uid "no_transcription" tgCode []]
    ∧ (on_voice runEnEs runEsEn scoresOf renderScore store uid tgCode "" lang confStr).translatorCalled
      = false
    ∧ (on_voice runEnEs runEsEn scoresOf renderScore store uid tgCode "" lang confStr).classifierCalled
      = false := by
  refine ⟨?_, ?_, ?_⟩ <;> simp [on_voice]

/-- C6 counterexample: when the translation capability produces output that
strips to the empty string, the voice handler sends the "translation
skipped" notice even though `target_lang = "es" ≠ "same"` — so the notice is
not sent *exactly* when `target_lang == "same"`, refuting the claim as
stated at this concrete input. -/
theorem claim_C6_counterexample :
    (translate_text (fun _ => some "") (fun _ => none) "en" "hi").2 = "es"
    ∧ (translate_text (fun _ => some "") (fun _ => none) "en" "hi").2 ≠ "same"
    ∧ (on_voice (fun _ => some "") (fun _ => none) (fun _ => []) (fun _ => "")
        (fun _ => none) 1 "en" "hi" "en" "92").sent.get? 1
      = some (t (fun _ => none) 1 "translation_skipped" "en" []) := by
  refine ⟨?_, ?_, ?_⟩ <;> decide

/-- C6 (amended): for every voice message with a non-empty transcription the
voice handler sends exactly three logical message groups in fixed order —
the transcription header prepended to the first chunk of the transcription
followed by its remaining chunks, then either the translation header
prepended to the first chunk of the translated text followed by its
remaining chunks (when `target_lang ≠ "same"` and the translated text is
non-empty) or the "translation skipped" notice (exactly when
`target_lang = "same"` or the translated text is empty), and last a single
emotion summary line. -/
theorem claim_C6 (runEnEs runEsEn : String → Option String)
    (scoresOf : String → List (String × ℚ)) (renderScore : ℚ → String)
    (store : Nat → Option String) (uid : Nat) (tgCode : String)
    (text lang confStr : String) (ht : text ≠ "") :
    ((translate_text runEnEs runEsEn lang text).2 ≠ "same"
      ∧ (translate_text runEnEs runEsEn lang text).1 ≠ "" →
      ∃ emo,
        (on_voice runEnEs runEsEn scoresOf renderScore store uid tgCode text lang confStr).sent
          = ((t store uid "transcription_header" tgCode
                [("flag", flag_for_lang lang), ("lang", lang), ("conf", confStr)]
              ++ ((splitTelegramMessage 4096 text.data).map (fun l => String.mk l)).headD "")
             :: ((splitTelegramMessage 4096 text.data).map (fun l => String.mk l)).tail)
            ++ ((t store uid "translation_header" tgCode
                [("flag", if (translate_text runEnEs runEsEn lang text).2 = "en" then "🇬🇧"
                          else if (translate_text runEnEs runEsEn lang text).2 = "es" then "🇪🇸"
                          else "🌐"),
                 ("src", lang), ("tgt", (translate_text runEnEs runEsEn lang text).2)]
                ++ ((splitTelegramMessage 4096 (translate_text runEnEs runEsEn lang text).1.data).map
                      (fun l => String.mk l)).headD "")
               :: ((splitTelegramMessage 4096 (translate_text runEnEs runEsEn lang text).1.data).map
                      (fun l => String.mk l)).tail)
            ++ [t store uid "emotion_header" tgCode [("emo", emo)]])
    ∧ ((translate_text runEnEs runEsEn lang text).2 = "same"
        ∨ (translate_text runEnEs runEsEn lang text).1 = "" →
      ∃ emo,
        (on_voice runEnEs runEsEn scoresOf renderScore store uid tgCode text lang confStr).sent
          = ((t store uid "transcription_header" tgCode
                [("flag", flag_for_lang lang), ("lang", lang), ("conf", confStr)]
              ++ ((splitTelegramMessage 4096 text.data).map (fun l => String.mk l)).headD "")
             :: ((splitTelegramMessage 4096 text.data).map (fun l => String.mk l)).tail)
            ++ [t store uid "translation_skipped" tgCode []]
            ++ [t store uid "emotion_header" tgCode [("emo", emo)]]) := by
  constructor
  · intro hc
    exact ⟨_, by simp only [on_voice, if_neg ht, if_pos hc]; rfl⟩
  · intro hc
    have hnc : ¬((translate_text runEnEs runEsEn lang text).2 ≠ "same"
        ∧ (translate_text runEnEs runEsEn lang text).1 ≠ "") := by
      rintro ⟨h1, h2⟩
      rcases hc with hc | hc
      · exact h1 hc
      · exact h2 hc
    exact ⟨_, by simp only [on_voice, if_neg ht, if_neg hnc]; rfl⟩

theorem claim_C6_witness :
    "hi" ≠ ""
    ∧ ((translate_text (fun _ => some "hola") (fun _ => none) "en" "hi").2 ≠ "same"
       ∧ (translate_text (fun _ => some "hola") (fun _ => none) "en" "hi").1 ≠ "")
    ∧ (∃ emo,
        (on_voice (fun _ => some "hola") (fun _ => none) (fun _ => []) (fun _ => "")
            (fun _ => none) 1 "en" "hi" "en" "92").sent
          = ((t (fun _ => none) 1 "transcription_header" "en"
                [("flag", flag_for_lang "en"), ("lang", "en"), ("conf", "92")]
              ++ ((splitTelegramMessage 4096 "hi".data).map (fun l => String.mk l)).headD "")
             :: ((splitTelegramMessage 4096 "hi".data).map (fun l => String.mk l)).tail)
            ++ ((t (fun _ => none) 1 "translation_header" "en"
                [("flag", if (translate_text (fun _ => some "hola") (fun _ => none) "en" "hi").2 = "en" then "🇬🇧"
                          else if (translate_text (fun _ => some "hola") (fun _ => none) "en" "hi").2 = "es" then "🇪🇸"
                          else "🌐"),
                 ("src", "en"), ("tgt", (translate_text (fun _ => some "hola") (fun _ => none) "en" "hi").2)]
                ++ ((splitTelegramMessage 4096 (translate_text (fun _ => some "hola") (fun _ => none) "en" "hi").1.data).map
                      (fun l => String.mk l)).headD "")
               :: ((splitTelegramMessage 4096 (translate_text (fun _ => some "hola") (fun _ => none) "en" "hi").1.data).map
                      (fun l => String.mk l)).tail)
            ++ [t (fun _ => none) 1 "emotion_header" "en" [("emo", emo)]]) := by
  refine ⟨by decide, ⟨by decide, by decide⟩, ?_⟩
  exact (claim_C6 (fun _ => some "hola") (fun _ => none) (fun _ => []) (fun _ => "")
      (fun _ => none) 1 "en" "hi" "en" "92" (by decide)).1 ⟨by decide, by decide⟩

end TFM
